import Mathlib

/-!
# Index-pushdown rewrite engine: shallow embedding

A shallow embedding of the predicate-to-index-path rewrite engine of the
documentdb `pg_helio_api` extension, together with proofs of its stated
properties.

The repository ships the public header
`src/pg_helio_api/include/opclass/helio_index_support.h`, which declares the
context record (`ReplaceExtensionFunctionContext`), its immutable input
(`ReplaceFunctionContextInput`), the `$in`-rewrite parent-type enum
(`PlanParentType`), the `EnableInQueryOptimization` switch, the two entry
points (`ReplaceExtensionFunctionOperatorsInPaths`, here `rewritePaths`, and
`ReplaceExtensionFunctionOperatorsInRestrictionPaths`, here
`annotateRestrictions`) and `IsBtreePrimaryKeyIndex`.  The bodies of those
functions are not part of the source tree, so the algorithms are modelled
from the design document (its sections 3, 4.1-4.3, 7 and 8); names follow the
header where the header declares them and the design document elsewhere.
-/

/-- Kind of a candidate index: ordered/equality-capable btree, text index with
a configured language, or vector index with a metric and dimensionality. -/
inductive IndexKind where
  | ordered : IndexKind
  | text (language : String) : IndexKind
  | vector (metric : String) (dimensions : Nat) : IndexKind
deriving DecidableEq, Repr

/-- One available index of a relation: its kind, the fields it covers, and
whether it is the relation's unique primary-key index. -/
structure CandidateIndex where
  kind : IndexKind
  coveredFields : List String
  isPrimaryKey : Bool
deriving DecidableEq, Repr

/-- Mirrors `IsBtreePrimaryKeyIndex` of `helio_index_support.h`: the index is
the unique ordered (btree) primary-key index of the relation. -/
def IsBtreePrimaryKeyIndex (idx : CandidateIndex) : Bool :=
  idx.isPrimaryKey &&
    (match idx.kind with
     | IndexKind.ordered => true
     | _ => false)

/-- The parsed query data for a text predicate (header type
`QueryTextIndexData`): default language and search terms. -/
structure QueryTextIndexData where
  language : String
  terms : List String
deriving DecidableEq, Repr

/-- The parsed query data for a vector-search predicate (header type
`SearchQueryEvalData`): metric, dimensionality and result limit. -/
structure SearchQueryEvalData where
  metric : String
  dimensions : Nat
  limit : Nat
deriving DecidableEq, Repr

/-- The metrics a vector index can be declared with; any other metric in a
descriptor is malformed. -/
def validVectorMetrics : List String := ["cosine", "ip", "l2"]

/-- Modelled from the spec: a malformed or unsupported vector
`SearchDescriptor` (bad metric, zero dimensionality) is never served. -/
def wellFormedVector (d : SearchQueryEvalData) : Bool :=
  validVectorMetrics.contains d.metric && decide (0 < d.dimensions)

/-- Modelled from the spec: a text `SearchDescriptor` with unparsable/empty
search options is malformed and never served. -/
def wellFormedText (d : QueryTextIndexData) : Bool :=
  !d.terms.isEmpty

/-- A query predicate handed to the rewrite engine (spec `QueryPredicate`):
equality, `$in` list, text search, vector kNN with an exactness flag,
primary-key lookup, or an unsupported predicate the engine cannot serve. -/
inductive QueryPredicate where
  | equality (field : String) (value : Int) : QueryPredicate
  | inList (field : String) (values : List Int) : QueryPredicate
  | textSearch (descriptor : QueryTextIndexData) : QueryPredicate
  | vectorKNN (descriptor : SearchQueryEvalData) (exactFlag : Bool) : QueryPredicate
  | primaryKeyLookup (value : Int) : QueryPredicate
  | unsupported (tag : Nat) : QueryPredicate
deriving DecidableEq, Repr

/-- Whether a predicate is a text-search predicate. -/
def QueryPredicate.isTextSearch : QueryPredicate → Bool
  | QueryPredicate.textSearch _ => true
  | _ => false

/-- Whether a predicate is a vector kNN predicate. -/
def QueryPredicate.isVectorKNN : QueryPredicate → Bool
  | QueryPredicate.vectorKNN _ _ => true
  | _ => false

/-- Result of probing one predicate against a relation's indexes (spec
`ProbeResult`): unserved, served exactly, or served approximately, each
carrying the serving index. -/
inductive ProbeResult where
  | unserved : ProbeResult
  | servedExact (idx : CandidateIndex) : ProbeResult
  | servedApprox (idx : CandidateIndex) : ProbeResult
deriving DecidableEq, Repr

/-- Whether a probe result means some index serves the predicate. -/
def ProbeResult.isServed : ProbeResult → Bool
  | ProbeResult.unserved => false
  | _ => true

/-- An index is equality-capable when it is an ordered (btree) index. -/
def equalityCapable (idx : CandidateIndex) : Bool :=
  match idx.kind with
  | IndexKind.ordered => true
  | _ => false

/-- Whether an index covers a field. -/
def coversField (idx : CandidateIndex) (f : String) : Bool :=
  idx.coveredFields.contains f

/-- Whether a text index matches a text descriptor's configured language. -/
def textIndexMatches (d : QueryTextIndexData) (idx : CandidateIndex) : Bool :=
  match idx.kind with
  | IndexKind.text lang => lang == d.language
  | _ => false

/-- Whether a vector index matches a vector descriptor's metric and
dimensionality. -/
def vectorIndexMatches (d : SearchQueryEvalData) (idx : CandidateIndex) : Bool :=
  match idx.kind with
  | IndexKind.vector m n => m == d.metric && n == d.dimensions
  | _ => false

/-- Modelled from the spec: `IndexCapabilityProbe.probe` (section 4.1), whose
implementation is not in the source tree.  Pure decision of whether one of
the relation's indexes can serve a predicate and with what exactness:
primary-key equality is served exactly by the unique primary-key index;
equality and `$in` are served exactly by any equality-capable index covering
the field; text search is served approximately by a text index with a
matching language; vector kNN with the exact flag is never index-served, and
without it is served approximately by a vector index matching metric and
dimensionality; malformed descriptors and unsupported predicates are
unserved. -/
def probe (idxs : List CandidateIndex) : QueryPredicate → ProbeResult
  | QueryPredicate.equality f _ =>
    match idxs.find? (fun i => equalityCapable i && coversField i f) with
    | some i => ProbeResult.servedExact i
    | none => ProbeResult.unserved
  | QueryPredicate.inList f _ =>
    match idxs.find? (fun i => equalityCapable i && coversField i f) with
    | some i => ProbeResult.servedExact i
    | none => ProbeResult.unserved
  | QueryPredicate.textSearch d =>
    if wellFormedText d then
      match idxs.find? (textIndexMatches d) with
      | some i => ProbeResult.servedApprox i
      | none => ProbeResult.unserved
    else ProbeResult.unserved
  | QueryPredicate.vectorKNN d exactFlag =>
    if exactFlag then ProbeResult.unserved
    else if wellFormedVector d then
      match idxs.find? (vectorIndexMatches d) with
      | some i => ProbeResult.servedApprox i
      | none => ProbeResult.unserved
    else ProbeResult.unserved
  | QueryPredicate.primaryKeyLookup _ =>
    match idxs.find? (fun i => IsBtreePrimaryKeyIndex i) with
    | some i => ProbeResult.servedExact i
    | none => ProbeResult.unserved
  | QueryPredicate.unsupported _ => ProbeResult.unserved

/-- A physical access path contributed to the planner (spec `AccessPath`):
a sequential scan, a single index scan answering one predicate with an
exactness flag, a multi-value index scan for one `$in` list, or a
single-value index scan for one `$in` element. -/
inductive AccessPath where
  | seqScan : AccessPath
  | indexScan (index : CandidateIndex) (pred : QueryPredicate) (exact : Bool) : AccessPath
  | multiValueIndexScan (index : CandidateIndex) (field : String) (values : List Int) : AccessPath
  | singleValueIndexScan (index : CandidateIndex) (field : String) (value : Int) : AccessPath
deriving DecidableEq, Repr

/-- How multiple index scans are combined at the parent node (spec
`Combinator`). -/
inductive Combinator where
  | none : Combinator
  | wrapAsBitmapHeap : Combinator
  | bitmapOr : Combinator
deriving DecidableEq, Repr

/-- Mirrors `PlanParentType` of `helio_index_support.h`: the parent node type
for the `$in` optimization; the rewrite is not performed when the parent is
invalid, a `PARENTTYPE_NONE` parent needs the BitmapOr wrapped in a bitmap
heap path, and a `PARENTTYPE_BITMAPHEAP` parent consumes the BitmapOr
directly. -/
inductive PlanParentType where
  | PARENTTYPE_INVALID : PlanParentType
  | PARENTTYPE_NONE : PlanParentType
  | PARENTTYPE_BITMAPHEAP : PlanParentType
deriving DecidableEq, Repr

/-- Mirrors `ReplaceFunctionContextInput` of `helio_index_support.h`: the
immutable caller-supplied input of one rewrite pass. -/
structure ReplaceFunctionContextInput where
  isRuntimeTextScan : Bool
  isShardQuery : Bool
  collectionId : Nat
deriving DecidableEq, Repr

/-- The per-statement probe memo: an association list from predicate to its
memoized probe result, appended in probe order. -/
abbrev Memo := List (QueryPredicate × ProbeResult)

/-- Look a predicate up in the probe memo. -/
def lookupProbe (m : Memo) (p : QueryPredicate) : Option ProbeResult :=
  (List.find? (fun e => decide (e.1 = p)) m).map Prod.snd

/-- The memoized probe result of a predicate, unserved when never probed. -/
def memoResult (m : Memo) (p : QueryPredicate) : ProbeResult :=
  (lookupProbe m p).getD ProbeResult.unserved

/-- Mirrors `ReplaceExtensionFunctionContext` of `helio_index_support.h`,
extended with the fields the design document gives the rewrite context:
`probedPredicates` is the per-statement probe memo and `pathsProcessed`
records that `rewritePaths` ran for this relation in this compile (the
header stores the equivalent information in the replaced path lists). -/
structure ReplaceExtensionFunctionContext where
  indexOptionsForText : Option QueryTextIndexData
  queryDataForVectorSearch : Option SearchQueryEvalData
  hasTextIndexQuery : Bool
  hasVectorSearchQuery : Bool
  primaryKeyLookupPath : Option AccessPath
  probedPredicates : Memo
  pathsProcessed : Bool
  inputData : ReplaceFunctionContextInput
deriving DecidableEq, Repr

/-- A fresh context, created at the start of compiling one relation's paths. -/
def freshContext (input : ReplaceFunctionContextInput) : ReplaceExtensionFunctionContext :=
  { indexOptionsForText := Option.none
    queryDataForVectorSearch := Option.none
    hasTextIndexQuery := false
    hasVectorSearchQuery := false
    primaryKeyLookupPath := Option.none
    probedPredicates := []
    pathsProcessed := false
    inputData := input }

/-- Probe one predicate into the memo unless it is already memoized. -/
def probeOneM (idxs : List CandidateIndex) (m : Memo) (p : QueryPredicate) : Memo :=
  if (lookupProbe m p).isSome then m else m ++ [(p, probe idxs p)]

/-- Probe every predicate of the list into the memo (step 1 of the path
rewriter: each predicate not yet probed is probed and its result stored). -/
def probeAllM (idxs : List CandidateIndex) (ps : List QueryPredicate) (m : Memo) : Memo :=
  ps.foldl (probeOneM idxs) m

/-- The tuning and gating parameters of one `rewritePaths` call: the
configurable `$in` fan-out threshold, the global `EnableInQueryOptimization`
switch of the header, and the `PlanParentType` of the surrounding plan. -/
structure RewriteParams where
  fanoutThreshold : Nat
  enableInQueryOptimization : Bool
  parentType : PlanParentType
deriving DecidableEq, Repr

/-- First predicate of the list whose memoized probe result is `ServedExact`
via the primary-key index, with that index (step 2 of the path rewriter). -/
def findPkMatch (m : Memo) : List QueryPredicate → Option (QueryPredicate × CandidateIndex)
  | [] => Option.none
  | p :: ps =>
    match memoResult m p with
    | ProbeResult.servedExact ix =>
      if IsBtreePrimaryKeyIndex ix then some (p, ix) else findPkMatch m ps
    | _ => findPkMatch m ps

/-- Remove the first occurrence of a predicate from a list. -/
def removeFirst : List QueryPredicate → QueryPredicate → List QueryPredicate
  | [], _ => []
  | q :: qs, p => if q = p then qs else q :: removeFirst qs p

/-- Modelled from the spec: the access paths synthesized for one served
predicate (step 3 of the path rewriter, whose implementation is not in the
source tree).  An unserved predicate yields nothing; a served `$in` list is
rewritten only when `EnableInQueryOptimization` is set and the parent type is
valid, into one multi-value scan when the list is within the fan-out
threshold and into one single-value scan per value beyond it; every other
served predicate yields one index scan carrying the probe's exactness. -/
def pathsFor (prm : RewriteParams) (m : Memo) (p : QueryPredicate) : List AccessPath :=
  match memoResult m p with
  | ProbeResult.unserved => []
  | ProbeResult.servedExact ix =>
    match p with
    | QueryPredicate.inList f vs =>
      if prm.enableInQueryOptimization ∧ prm.parentType ≠ PlanParentType.PARENTTYPE_INVALID then
        if vs.length ≤ prm.fanoutThreshold then [AccessPath.multiValueIndexScan ix f vs]
        else vs.map (AccessPath.singleValueIndexScan ix f)
      else []
    | _ => [AccessPath.indexScan ix p true]
  | ProbeResult.servedApprox ix => [AccessPath.indexScan ix p false]

/-- Modelled from the spec: combinator selection (step 4 of the path
rewriter).  At most one access path needs no combination; several are
combined with `BitmapOr`, consumed directly when the parent already is a
bitmap-heap parent and wrapped as a bitmap heap path otherwise. -/
def chooseCombinator (parent : PlanParentType) (paths : List AccessPath) : Combinator :=
  if paths.length ≤ 1 then Combinator.none
  else
    match parent with
    | PlanParentType.PARENTTYPE_BITMAPHEAP => Combinator.bitmapOr
    | _ => Combinator.wrapAsBitmapHeap

/-- First component of an optional pair, falling back to the second. -/
def orFirst {α : Type} (a b : Option α) : Option α :=
  match a with
  | some x => some x
  | Option.none => b

/-- The text query data of the first served text predicate, if any. -/
def firstTextData (m : Memo) (preds : List QueryPredicate) : Option QueryTextIndexData :=
  preds.findSome? fun p =>
    match p with
    | QueryPredicate.textSearch d =>
      if (memoResult m p).isServed then some d else Option.none
    | _ => Option.none

/-- The vector query data of the first served vector predicate, if any. -/
def firstVectorData (m : Memo) (preds : List QueryPredicate) : Option SearchQueryEvalData :=
  preds.findSome? fun p =>
    match p with
    | QueryPredicate.vectorKNN d _ =>
      if (memoResult m p).isServed then some d else Option.none
    | _ => Option.none

/-- Whether some text predicate of the list is served by an index. -/
def servedTextPresent (m : Memo) (preds : List QueryPredicate) : Bool :=
  preds.any fun p => p.isTextSearch && (memoResult m p).isServed

/-- Whether some vector predicate of the list is served by an index. -/
def servedVectorPresent (m : Memo) (preds : List QueryPredicate) : Bool :=
  preds.any fun p => p.isVectorKNN && (memoResult m p).isServed

/-- The result of one `rewritePaths` call: the synthesized access paths, how
they combine, the predicates left in the relation's restriction list as
runtime filters, and the updated context. -/
structure RewriteOutput where
  paths : List AccessPath
  combinator : Combinator
  filters : List QueryPredicate
  ctx : ReplaceExtensionFunctionContext
deriving DecidableEq, Repr

/-- Modelled from the spec: the decision phase of the path rewriter (steps
2-5 of section 4.2), run over a context whose memo already holds every
predicate's probe result.  If some predicate probed `ServedExact` via the
primary-key index, exactly one access path (the primary-key lookup) is
produced, recorded in the context, and every other predicate stays in the
restriction list (first match wins).  Otherwise each served predicate
contributes its paths, unserved predicates stay as runtime filters, the
text/vector flags and query data of the context are updated, and the
combinator is selected from the number of paths and the parent type. -/
def rewriteDecide (prm : RewriteParams) (preds : List QueryPredicate)
    (ctx : ReplaceExtensionFunctionContext) : RewriteOutput :=
  match findPkMatch ctx.probedPredicates preds with
  | some (p, ix) =>
    { paths := [AccessPath.indexScan ix p true]
      combinator := Combinator.none
      filters := removeFirst preds p
      ctx := { ctx with
                primaryKeyLookupPath := some (AccessPath.indexScan ix p true)
                pathsProcessed := true } }
  | Option.none =>
    let allPaths := (preds.map (pathsFor prm ctx.probedPredicates)).flatten
    { paths := allPaths
      combinator := chooseCombinator prm.parentType allPaths
      filters := preds.filter fun p => (pathsFor prm ctx.probedPredicates p).isEmpty
      ctx := { ctx with
                hasTextIndexQuery :=
                  ctx.hasTextIndexQuery || servedTextPresent ctx.probedPredicates preds
                hasVectorSearchQuery :=
                  ctx.hasVectorSearchQuery || servedVectorPresent ctx.probedPredicates preds
                indexOptionsForText :=
                  orFirst ctx.indexOptionsForText (firstTextData ctx.probedPredicates preds)
                queryDataForVectorSearch :=
                  orFirst ctx.queryDataForVectorSearch (firstVectorData ctx.probedPredicates preds)
                pathsProcessed := true } }

/-- Modelled from the spec: `ReplaceExtensionFunctionOperatorsInPaths` /
`rewritePaths(relation, predicates, context)` (section 4.2), whose body is
not in the source tree.  Probes every predicate not yet memoized, then runs
the decision phase. -/
def rewritePaths (idxs : List CandidateIndex) (prm : RewriteParams)
    (preds : List QueryPredicate) (ctx0 : ReplaceExtensionFunctionContext) : RewriteOutput :=
  rewriteDecide prm preds
    { ctx0 with probedPredicates := probeAllM idxs preds ctx0.probedPredicates }

/-- A predicate as returned by the restriction rewriter: logically unchanged,
possibly carrying a `requiresRuntimeRecheck` annotation (absent for
predicates that were never pushdown candidates). -/
structure AnnotatedPredicate where
  pred : QueryPredicate
  requiresRuntimeRecheck : Option Bool
deriving DecidableEq, Repr

/-- The defensive-abort message raised when the restriction rewriter is
invoked for a relation whose path rewriter never ran in this compile. -/
def contextReuseError : String :=
  "restriction rewrite invoked before path rewrite for this relation"

/-- The recheck annotation derived from a memoized probe result: approximate
service always needs the runtime recheck, exact service never does, and a
predicate that was unserved or never probed is passed through unannotated. -/
def recheckForResult : Option ProbeResult → Option Bool
  | some (ProbeResult.servedApprox _) => some true
  | some (ProbeResult.servedExact _) => some false
  | _ => Option.none

/-- Annotate one restriction predicate from the memo and the caller input:
the caller-declared runtime-text-scan flag forces the recheck for text
predicates regardless of the probe result. -/
def annotateOne (input : ReplaceFunctionContextInput) (m : Memo)
    (p : QueryPredicate) : AnnotatedPredicate :=
  if p.isTextSearch && input.isRuntimeTextScan then
    { pred := p, requiresRuntimeRecheck := some true }
  else
    { pred := p, requiresRuntimeRecheck := recheckForResult (lookupProbe m p) }

/-- Modelled from the spec:
`ReplaceExtensionFunctionOperatorsInRestrictionPaths` /
`annotateRestrictions(relation, predicateList, context)` (sections 4.3 and
7), whose body is not in the source tree.  Invoking it for a relation whose
path rewriter never ran in this compile is a programming-invariant violation
and aborts; when the context already records a primary-key lookup path the
list is returned unchanged (no predicate annotated, added or removed);
otherwise each predicate is annotated from its memoized probe result, never
re-probed. -/
def annotateRestrictions (ctx : ReplaceExtensionFunctionContext)
    (l : List QueryPredicate) : Except String (List AnnotatedPredicate) :=
  if ¬ctx.pathsProcessed then Except.error contextReuseError
  else if ctx.primaryKeyLookupPath.isSome then
    Except.ok (l.map fun p => { pred := p, requiresRuntimeRecheck := Option.none })
  else
    Except.ok (l.map (annotateOne ctx.inputData ctx.probedPredicates))

/-! ## Sample relations and predicates used by the concrete scenarios -/

/-- A unique btree primary-key index on `_id`. -/
def pkIndex : CandidateIndex := ⟨IndexKind.ordered, ["_id"], true⟩

/-- A secondary equality-capable index on field `a`. -/
def eqIndex : CandidateIndex := ⟨IndexKind.ordered, ["a"], false⟩

/-- An english-language text index on field `b`. -/
def textIndex : CandidateIndex := ⟨IndexKind.text "english", ["b"], false⟩

/-- A cosine-metric, three-dimensional vector index on field `v`. -/
def vecIndex : CandidateIndex := ⟨IndexKind.vector "cosine" 3, ["v"], false⟩

/-- Caller input without the runtime-text-scan flag. -/
def sampleInputNoFlag : ReplaceFunctionContextInput := ⟨false, false, 7⟩

/-- Caller input with the runtime-text-scan flag set. -/
def sampleInputFlag : ReplaceFunctionContextInput := ⟨true, false, 7⟩

/-- A sample text-search predicate. -/
def textPredSample : QueryPredicate := QueryPredicate.textSearch ⟨"english", ["hello"]⟩

/-- A sample primary-key lookup predicate. -/
def pkPredSample : QueryPredicate := QueryPredicate.primaryKeyLookup 1

/-- A sample approximate vector kNN predicate matching `vecIndex`. -/
def vecPredSample : QueryPredicate := QueryPredicate.vectorKNN ⟨"cosine", 3, 10⟩ false

/-- A sample `$in` predicate on field `a`. -/
def inPredSample : QueryPredicate := QueryPredicate.inList "a" [1, 2, 3]

/-- Sample rewrite parameters: fan-out threshold 2, `$in` optimization
enabled, bitmap-heap parent. -/
def scenarioParams : RewriteParams := ⟨2, true, PlanParentType.PARENTTYPE_BITMAPHEAP⟩

/-! ## Probe-memo lemmas -/

/-- A memo is faithful when every memoized entry is the probe's answer. -/
def FaithfulMemo (idxs : List CandidateIndex) (m : Memo) : Prop :=
  ∀ p r, lookupProbe m p = some r → r = probe idxs p

theorem lookupProbe_nil (p : QueryPredicate) : lookupProbe [] p = Option.none := rfl

theorem lookupProbe_cons (q : QueryPredicate) (r : ProbeResult) (m : Memo)
    (p : QueryPredicate) :
    lookupProbe ((q, r) :: m) p = if q = p then some r else lookupProbe m p := by
  by_cases h : q = p
  · subst h
    simp [lookupProbe, List.find?]
  · simp [lookupProbe, List.find?, h]

theorem lookupProbe_append (m m' : Memo) (p : QueryPredicate) :
    lookupProbe (m ++ m') p = orFirst (lookupProbe m p) (lookupProbe m' p) := by
  induction m with
  | nil => simp [lookupProbe_nil, orFirst]
  | cons e m ih =>
    obtain ⟨q, r⟩ := e
    by_cases h : q = p
    · simp [List.cons_append, lookupProbe_cons, h, orFirst]
    · simp [List.cons_append, lookupProbe_cons, h, ih]

theorem probeOneM_of_isSome (idxs : List CandidateIndex) (m : Memo) (p : QueryPredicate)
    (h : (lookupProbe m p).isSome) : probeOneM idxs m p = m := by
  simp [probeOneM, h]

theorem lookupProbe_probeOneM_isSome (idxs : List CandidateIndex) (m : Memo)
    (p : QueryPredicate) : (lookupProbe (probeOneM idxs m p) p).isSome := by
  unfold probeOneM
  by_cases h : (lookupProbe m p).isSome
  · simp [h]
  · rw [if_neg h, lookupProbe_append]
    rw [Option.not_isSome_iff_eq_none] at h
    simp [h, orFirst, lookupProbe_cons]

theorem lookupProbe_probeOneM_mono (idxs : List CandidateIndex) (m : Memo)
    (q p : QueryPredicate) (r : ProbeResult) (h : lookupProbe m p = some r) :
    lookupProbe (probeOneM idxs m q) p = some r := by
  unfold probeOneM
  by_cases hq : (lookupProbe m q).isSome
  · simp [hq, h]
  · rw [if_neg hq, lookupProbe_append, h]
    rfl

theorem probeAllM_cons (idxs : List CandidateIndex) (q : QueryPredicate)
    (qs : List QueryPredicate) (m : Memo) :
    probeAllM idxs (q :: qs) m = probeAllM idxs qs (probeOneM idxs m q) := rfl

theorem lookupProbe_probeAllM_mono (idxs : List CandidateIndex) (ps : List QueryPredicate)
    (m : Memo) (p : QueryPredicate) (r : ProbeResult) (h : lookupProbe m p = some r) :
    lookupProbe (probeAllM idxs ps m) p = some r := by
  induction ps generalizing m with
  | nil => simpa [probeAllM] using h
  | cons q qs ih =>
    rw [probeAllM_cons]
    exact ih (probeOneM idxs m q) (lookupProbe_probeOneM_mono idxs m q p r h)

theorem lookupProbe_probeAllM_isSome (idxs : List CandidateIndex)
    (ps : List QueryPredicate) (m : Memo) (p : QueryPredicate) (hmem : p ∈ ps) :
    (lookupProbe (probeAllM idxs ps m) p).isSome := by
  induction ps generalizing m with
  | nil => cases hmem
  | cons q qs ih =>
    rw [probeAllM_cons]
    rcases List.mem_cons.mp hmem with h | h
    · subst h
      obtain ⟨r, hr⟩ := Option.isSome_iff_exists.mp (lookupProbe_probeOneM_isSome idxs m p)
      rw [lookupProbe_probeAllM_mono idxs qs _ p r hr]
      rfl
    · exact ih (probeOneM idxs m q) h

theorem faithful_nil (idxs : List CandidateIndex) : FaithfulMemo idxs [] := by
  intro p r h
  simp [lookupProbe_nil] at h

theorem faithful_probeOneM (idxs : List CandidateIndex) (m : Memo) (q : QueryPredicate)
    (h : FaithfulMemo idxs m) : FaithfulMemo idxs (probeOneM idxs m q) := by
  intro p r hr
  unfold probeOneM at hr
  by_cases hq : (lookupProbe m q).isSome
  · rw [if_pos hq] at hr
    exact h p r hr
  · rw [if_neg hq, lookupProbe_append] at hr
    cases hm : lookupProbe m p with
    | some s =>
      rw [hm] at hr
      simp [orFirst] at hr
      rw [← hr]
      exact h p s hm
    | none =>
      rw [hm] at hr
      simp only [orFirst] at hr
      rw [lookupProbe_cons] at hr
      by_cases hqp : q = p
      · rw [if_pos hqp] at hr
        cases hr
        rw [hqp]
      · rw [if_neg hqp] at hr
        simp [lookupProbe_nil] at hr

theorem faithful_probeAllM (idxs : List CandidateIndex) (ps : List QueryPredicate)
    (m : Memo) (h : FaithfulMemo idxs m) : FaithfulMemo idxs (probeAllM idxs ps m) := by
  induction ps generalizing m with
  | nil => exact h
  | cons q qs ih =>
    rw [probeAllM_cons]
    exact ih (probeOneM idxs m q) (faithful_probeOneM idxs m q h)

theorem lookupProbe_probeAllM_of_faithful (idxs : List CandidateIndex)
    (ps : List QueryPredicate) (m : Memo) (p : QueryPredicate)
    (hf : FaithfulMemo idxs m) (hmem : p ∈ ps) :
    lookupProbe (probeAllM idxs ps m) p = some (probe idxs p) := by
  obtain ⟨r, hr⟩ :=
    Option.isSome_iff_exists.mp (lookupProbe_probeAllM_isSome idxs ps m p hmem)
  rw [hr, faithful_probeAllM idxs ps m hf p r hr]

theorem memoResult_probeAllM_of_faithful (idxs : List CandidateIndex)
    (ps : List QueryPredicate) (m : Memo) (p : QueryPredicate)
    (hf : FaithfulMemo idxs m) (hmem : p ∈ ps) :
    memoResult (probeAllM idxs ps m) p = probe idxs p := by
  simp [memoResult, lookupProbe_probeAllM_of_faithful idxs ps m p hf hmem]

theorem probeAllM_fixed (idxs : List CandidateIndex) (ps : List QueryPredicate)
    (m : Memo) (h : ∀ p ∈ ps, (lookupProbe m p).isSome) : probeAllM idxs ps m = m := by
  induction ps with
  | nil => rfl
  | cons q qs ih =>
    rw [probeAllM_cons, probeOneM_of_isSome idxs m q (h q (List.mem_cons_self q qs))]
    exact ih fun p hp => h p (List.mem_cons_of_mem q hp)

theorem probeAllM_idem (idxs : List CandidateIndex) (ps : List QueryPredicate) (m : Memo) :
    probeAllM idxs ps (probeAllM idxs ps m) = probeAllM idxs ps m :=
  probeAllM_fixed idxs ps _ fun p hp => lookupProbe_probeAllM_isSome idxs ps m p hp

theorem probeAllM_singleton (idxs : List CandidateIndex) (p : QueryPredicate) :
    probeAllM idxs [p] [] = [(p, probe idxs p)] := by
  simp [probeAllM, probeOneM, lookupProbe_nil]

theorem memoResult_singleton (p : QueryPredicate) (r : ProbeResult) :
    memoResult [(p, r)] p = r := by
  simp [memoResult, lookupProbe_cons]

theorem orFirst_orFirst_self {α : Type} (a b : Option α) :
    orFirst (orFirst a b) b = orFirst a b := by
  cases a <;> cases b <;> rfl

theorem ctx_set_probed_self (c : ReplaceExtensionFunctionContext) (m : Memo)
    (hm : c.probedPredicates = m) :
    ({ c with probedPredicates := m } : ReplaceExtensionFunctionContext) = c := by
  subst hm
  rfl

/-! ## Rewriter branch lemmas -/

theorem rewriteDecide_pk (prm : RewriteParams) (preds : List QueryPredicate)
    (c : ReplaceExtensionFunctionContext) (q : QueryPredicate) (jx : CandidateIndex)
    (hfind : findPkMatch c.probedPredicates preds = some (q, jx)) :
    rewriteDecide prm preds c =
      { paths := [AccessPath.indexScan jx q true]
        combinator := Combinator.none
        filters := removeFirst preds q
        ctx := { c with
                  primaryKeyLookupPath := some (AccessPath.indexScan jx q true)
                  pathsProcessed := true } } := by
  unfold rewriteDecide
  rw [hfind]

theorem rewriteDecide_nopk (prm : RewriteParams) (preds : List QueryPredicate)
    (c : ReplaceExtensionFunctionContext)
    (hfind : findPkMatch c.probedPredicates preds = Option.none) :
    rewriteDecide prm preds c =
      { paths := (preds.map (pathsFor prm c.probedPredicates)).flatten
        combinator :=
          chooseCombinator prm.parentType (preds.map (pathsFor prm c.probedPredicates)).flatten
        filters := preds.filter fun p => (pathsFor prm c.probedPredicates p).isEmpty
        ctx := { c with
                  hasTextIndexQuery :=
                    c.hasTextIndexQuery || servedTextPresent c.probedPredicates preds
                  hasVectorSearchQuery :=
                    c.hasVectorSearchQuery || servedVectorPresent c.probedPredicates preds
                  indexOptionsForText :=
                    orFirst c.indexOptionsForText (firstTextData c.probedPredicates preds)
                  queryDataForVectorSearch :=
                    orFirst c.queryDataForVectorSearch (firstVectorData c.probedPredicates preds)
                  pathsProcessed := true } } := by
  unfold rewriteDecide
  rw [hfind]

theorem rewriteDecide_ctx_probed (prm : RewriteParams) (preds : List QueryPredicate)
    (c : ReplaceExtensionFunctionContext) :
    (rewriteDecide prm preds c).ctx.probedPredicates = c.probedPredicates := by
  unfold rewriteDecide
  split <;> rfl

theorem rewriteDecide_idem (prm : RewriteParams) (preds : List QueryPredicate)
    (c : ReplaceExtensionFunctionContext) :
    rewriteDecide prm preds (rewriteDecide prm preds c).ctx = rewriteDecide prm preds c := by
  cases hfind : findPkMatch c.probedPredicates preds with
  | some pix =>
    obtain ⟨q, jx⟩ := pix
    have h1 := rewriteDecide_pk prm preds c q jx hfind
    rw [h1]
    dsimp only
    have hfind2 : findPkMatch
        ({ c with
            primaryKeyLookupPath := some (AccessPath.indexScan jx q true)
            pathsProcessed := true } : ReplaceExtensionFunctionContext).probedPredicates
          preds = some (q, jx) := hfind
    rw [rewriteDecide_pk prm preds _ q jx hfind2]
  | none =>
    have h1 := rewriteDecide_nopk prm preds c hfind
    rw [h1]
    dsimp only
    have hfind2 : findPkMatch
        ({ c with
            hasTextIndexQuery :=
              c.hasTextIndexQuery || servedTextPresent c.probedPredicates preds
            hasVectorSearchQuery :=
              c.hasVectorSearchQuery || servedVectorPresent c.probedPredicates preds
            indexOptionsForText :=
              orFirst c.indexOptionsForText (firstTextData c.probedPredicates preds)
            queryDataForVectorSearch :=
              orFirst c.queryDataForVectorSearch (firstVectorData c.probedPredicates preds)
            pathsProcessed := true } : ReplaceExtensionFunctionContext).probedPredicates
          preds = Option.none := hfind
    rw [rewriteDecide_nopk prm preds _ hfind2]
    simp [orFirst_orFirst_self, Bool.or_assoc, Bool.or_self]

theorem rewritePaths_eq (idxs : List CandidateIndex) (prm : RewriteParams)
    (preds : List QueryPredicate) (ctx0 : ReplaceExtensionFunctionContext) :
    rewritePaths idxs prm preds ctx0 =
      rewriteDecide prm preds
        { ctx0 with probedPredicates := probeAllM idxs preds ctx0.probedPredicates } := rfl

/-! ## findPkMatch lemmas -/

theorem findPkMatch_of_exists (idxs : List CandidateIndex) (m : Memo)
    (preds : List QueryPredicate)
    (hmm : ∀ p ∈ preds, memoResult m p = probe idxs p)
    (h : ∃ p ∈ preds, ∃ ix, probe idxs p = ProbeResult.servedExact ix ∧
      IsBtreePrimaryKeyIndex ix = true) :
    ∃ q jx, findPkMatch m preds = some (q, jx) ∧ q ∈ preds ∧
      probe idxs q = ProbeResult.servedExact jx ∧ IsBtreePrimaryKeyIndex jx = true := by
  induction preds with
  | nil =>
    obtain ⟨p, hp, _⟩ := h
    cases hp
  | cons a as ih =>
    cases hra : memoResult m a with
    | servedExact ix =>
      by_cases hpk : IsBtreePrimaryKeyIndex ix = true
      · refine ⟨a, ix, ?_, List.mem_cons_self a as, ?_, hpk⟩
        · simp [findPkMatch, hra, hpk]
        · rw [← hmm a (List.mem_cons_self a as), hra]
      · have hrec : findPkMatch m (a :: as) = findPkMatch m as := by
          simp [findPkMatch, hra, hpk]
        obtain ⟨p, hp, ixw, hpw, hpkw⟩ := h
        rcases List.mem_cons.mp hp with hpa | hpas
        · exfalso
          subst hpa
          rw [hmm p (List.mem_cons_self p as), hpw] at hra
          cases hra
          exact hpk hpkw
        · obtain ⟨q, jx, h1, h2, h3, h4⟩ :=
            ih (fun p hp => hmm p (List.mem_cons_of_mem a hp)) ⟨p, hpas, ixw, hpw, hpkw⟩
          exact ⟨q, jx, hrec ▸ h1, List.mem_cons_of_mem a h2, h3, h4⟩
    | unserved =>
      have hrec : findPkMatch m (a :: as) = findPkMatch m as := by
        simp [findPkMatch, hra]
      obtain ⟨p, hp, ixw, hpw, hpkw⟩ := h
      rcases List.mem_cons.mp hp with hpa | hpas
      · exfalso
        subst hpa
        rw [hmm p (List.mem_cons_self p as), hpw] at hra
        cases hra
      · obtain ⟨q, jx, h1, h2, h3, h4⟩ :=
          ih (fun p hp => hmm p (List.mem_cons_of_mem a hp)) ⟨p, hpas, ixw, hpw, hpkw⟩
        exact ⟨q, jx, hrec ▸ h1, List.mem_cons_of_mem a h2, h3, h4⟩
    | servedApprox ix =>
      have hrec : findPkMatch m (a :: as) = findPkMatch m as := by
        simp [findPkMatch, hra]
      obtain ⟨p, hp, ixw, hpw, hpkw⟩ := h
      rcases List.mem_cons.mp hp with hpa | hpas
      · exfalso
        subst hpa
        rw [hmm p (List.mem_cons_self p as), hpw] at hra
        cases hra
      · obtain ⟨q, jx, h1, h2, h3, h4⟩ :=
          ih (fun p hp => hmm p (List.mem_cons_of_mem a hp)) ⟨p, hpas, ixw, hpw, hpkw⟩
        exact ⟨q, jx, hrec ▸ h1, List.mem_cons_of_mem a h2, h3, h4⟩

theorem findPkMatch_none_of_unserved (m : Memo) (preds : List QueryPredicate)
    (h : ∀ p ∈ preds, memoResult m p = ProbeResult.unserved) :
    findPkMatch m preds = Option.none := by
  induction preds with
  | nil => rfl
  | cons a as ih =>
    have := h a (List.mem_cons_self a as)
    simp [findPkMatch, this]
    exact ih fun p hp => h p (List.mem_cons_of_mem a hp)

/-! ## Claim theorems -/

/-- C4: Memoization and idempotence.  Every predicate's probe result is
memoized in the context and reused; invoking the path rewriter and then the
restriction rewriter a second time over the context produced by the first
invocation, for the same relation, returns the same output — no additional
access paths — and leaves every `requiresRuntimeRecheck` annotation of the
restriction rewriter unchanged. -/
theorem rewrite_memoization_idempotent (idxs : List CandidateIndex)
    (prm : RewriteParams) (preds : List QueryPredicate)
    (ctx0 : ReplaceExtensionFunctionContext) (l : List QueryPredicate) :
    rewritePaths idxs prm preds (rewritePaths idxs prm preds ctx0).ctx
      = rewritePaths idxs prm preds ctx0 ∧
    annotateRestrictions (rewritePaths idxs prm preds
        (rewritePaths idxs prm preds ctx0).ctx).ctx l
      = annotateRestrictions (rewritePaths idxs prm preds ctx0).ctx l := by
  have key : rewritePaths idxs prm preds (rewritePaths idxs prm preds ctx0).ctx
      = rewritePaths idxs prm preds ctx0 := by
    rw [rewritePaths_eq idxs prm preds ctx0]
    rw [rewritePaths_eq idxs prm preds
      (rewriteDecide prm preds
        { ctx0 with probedPredicates := probeAllM idxs preds ctx0.probedPredicates }).ctx]
    rw [rewriteDecide_ctx_probed prm preds
      { ctx0 with probedPredicates := probeAllM idxs preds ctx0.probedPredicates }]
    have hp : ({ ctx0 with
        probedPredicates := probeAllM idxs preds ctx0.probedPredicates } :
        ReplaceExtensionFunctionContext).probedPredicates
        = probeAllM idxs preds ctx0.probedPredicates := rfl
    rw [hp, probeAllM_idem idxs preds ctx0.probedPredicates]
    rw [ctx_set_probed_self _ _ (by rw [rewriteDecide_ctx_probed])]
    exact rewriteDecide_idem prm preds _
  exact ⟨key, by rw [key]⟩

/-- C6: Primary-key short-circuit in the restriction rewriter.  When the
context records that a primary-key lookup path was found for the relation,
`annotateRestrictions` returns its input predicate list unchanged: the same
predicates in the same order, none annotated, none added, none removed. -/
theorem pk_short_circuit_restrictions (ctx : ReplaceExtensionFunctionContext)
    (l : List QueryPredicate) (ap : AccessPath)
    (hrun : ctx.pathsProcessed = true)
    (hpk : ctx.primaryKeyLookupPath = some ap) :
    annotateRestrictions ctx l
      = Except.ok (l.map fun p =>
          { pred := p, requiresRuntimeRecheck := Option.none }) ∧
    (l.map fun p =>
      ({ pred := p, requiresRuntimeRecheck := Option.none } : AnnotatedPredicate)).map
        AnnotatedPredicate.pred = l := by
  constructor
  · simp [annotateRestrictions, hrun, hpk]
  · rw [List.map_map]
    have hcomp : (AnnotatedPredicate.pred ∘ fun p =>
        ({ pred := p, requiresRuntimeRecheck := Option.none } : AnnotatedPredicate)) = id := rfl
    rw [hcomp, List.map_id]

/-- C6 witness: a concrete context produced by a primary-key rewrite, on
which the restriction rewriter returns the list unannotated. -/
theorem pk_short_circuit_restrictions_witness :
    (rewritePaths [pkIndex] scenarioParams [pkPredSample]
      (freshContext sampleInputNoFlag)).ctx.pathsProcessed = true ∧
    (rewritePaths [pkIndex] scenarioParams [pkPredSample]
      (freshContext sampleInputNoFlag)).ctx.primaryKeyLookupPath
      = some (AccessPath.indexScan pkIndex pkPredSample true) ∧
    annotateRestrictions (rewritePaths [pkIndex] scenarioParams [pkPredSample]
        (freshContext sampleInputNoFlag)).ctx [textPredSample]
      = Except.ok [{ pred := textPredSample, requiresRuntimeRecheck := Option.none }] :=
  ⟨by decide, by decide,
    (pk_short_circuit_restrictions
      (rewritePaths [pkIndex] scenarioParams [pkPredSample]
        (freshContext sampleInputNoFlag)).ctx
      [textPredSample] (AccessPath.indexScan pkIndex pkPredSample true)
      (by decide) (by decide)).1⟩

/-- C8: Context-reuse violation is fatal.  Invoking the restriction rewriter
for a relation whose path rewriter never ran in this compile is a
programming-invariant violation: `annotateRestrictions` aborts with the
defensive error instead of returning any annotated predicate list. -/
theorem context_reuse_violation_fatal (ctx : ReplaceExtensionFunctionContext)
    (l : List QueryPredicate) (h : ctx.pathsProcessed = false) :
    annotateRestrictions ctx l = Except.error contextReuseError := by
  simp [annotateRestrictions, h]

/-- C8 witness: a fresh context on which the path rewriter never ran makes
the restriction rewriter abort. -/
theorem context_reuse_violation_fatal_witness :
    (freshContext sampleInputNoFlag).pathsProcessed = false ∧
    annotateRestrictions (freshContext sampleInputNoFlag) [textPredSample]
      = Except.error contextReuseError :=
  ⟨rfl, context_reuse_violation_fatal (freshContext sampleInputNoFlag)
    [textPredSample] rfl⟩

/-- C5 (amended): Recheck invariant.  For relations where the context records
no primary-key path and the caller did not declare the runtime-text-scan
flag, after the restriction rewriter runs every predicate memoized as
`ServedApprox` carries `requiresRuntimeRecheck = true`, every `ServedExact`
predicate carries `requiresRuntimeRecheck = false`, and every unserved (or
never-probed) predicate is passed through without any annotation. -/
theorem recheck_invariant (ctx : ReplaceExtensionFunctionContext)
    (l : List QueryPredicate)
    (hrun : ctx.pathsProcessed = true)
    (hpk : ctx.primaryKeyLookupPath = Option.none)
    (hflag : ctx.inputData.isRuntimeTextScan = false) :
    ∃ out, annotateRestrictions ctx l = Except.ok out ∧
      ∀ a ∈ out,
        (∀ ix, lookupProbe ctx.probedPredicates a.pred
            = some (ProbeResult.servedApprox ix) →
          a.requiresRuntimeRecheck = some true) ∧
        (∀ ix, lookupProbe ctx.probedPredicates a.pred
            = some (ProbeResult.servedExact ix) →
          a.requiresRuntimeRecheck = some false) ∧
        ((lookupProbe ctx.probedPredicates a.pred = some ProbeResult.unserved ∨
          lookupProbe ctx.probedPredicates a.pred = Option.none) →
          a.requiresRuntimeRecheck = Option.none) := by
  refine ⟨l.map (annotateOne ctx.inputData ctx.probedPredicates), ?_, ?_⟩
  · simp [annotateRestrictions, hrun, hpk]
  · intro a ha
    obtain ⟨p, _, hap⟩ := List.mem_map.mp ha
    have hone : a = AnnotatedPredicate.mk p
        (recheckForResult (lookupProbe ctx.probedPredicates p)) := by
      rw [← hap]
      simp [annotateOne, hflag]
    have hpred : a.pred = p := by rw [hone]
    refine ⟨?_, ?_, ?_⟩
    · intro ix hx
      rw [hpred] at hx
      rw [hone]
      simp [recheckForResult, hx]
    · intro ix hx
      rw [hpred] at hx
      rw [hone]
      simp [recheckForResult, hx]
    · intro hx
      rw [hpred] at hx
      rw [hone]
      rcases hx with hx | hx <;> simp [recheckForResult, hx]

/-- C5 witness: a concrete non-primary-key context with a `ServedApprox` text
predicate, on which the amended recheck invariant holds. -/
theorem recheck_invariant_witness :
    (rewritePaths [textIndex] scenarioParams [textPredSample]
      (freshContext sampleInputNoFlag)).ctx.pathsProcessed = true ∧
    (rewritePaths [textIndex] scenarioParams [textPredSample]
      (freshContext sampleInputNoFlag)).ctx.primaryKeyLookupPath = Option.none ∧
    (rewritePaths [textIndex] scenarioParams [textPredSample]
      (freshContext sampleInputNoFlag)).ctx.inputData.isRuntimeTextScan = false ∧
    ∃ out, annotateRestrictions (rewritePaths [textIndex] scenarioParams
        [textPredSample] (freshContext sampleInputNoFlag)).ctx [textPredSample]
          = Except.ok out ∧
      ∀ a ∈ out,
        (∀ ix, lookupProbe (rewritePaths [textIndex] scenarioParams [textPredSample]
            (freshContext sampleInputNoFlag)).ctx.probedPredicates a.pred
            = some (ProbeResult.servedApprox ix) →
          a.requiresRuntimeRecheck = some true) ∧
        (∀ ix, lookupProbe (rewritePaths [textIndex] scenarioParams [textPredSample]
            (freshContext sampleInputNoFlag)).ctx.probedPredicates a.pred
            = some (ProbeResult.servedExact ix) →
          a.requiresRuntimeRecheck = some false) ∧
        ((lookupProbe (rewritePaths [textIndex] scenarioParams [textPredSample]
            (freshContext sampleInputNoFlag)).ctx.probedPredicates a.pred
            = some ProbeResult.unserved ∨
          lookupProbe (rewritePaths [textIndex] scenarioParams [textPredSample]
            (freshContext sampleInputNoFlag)).ctx.probedPredicates a.pred
            = Option.none) →
          a.requiresRuntimeRecheck = Option.none) :=
  ⟨by decide, by decide, by decide,
    recheck_invariant
      (rewritePaths [textIndex] scenarioParams [textPredSample]
        (freshContext sampleInputNoFlag)).ctx
      [textPredSample] (by decide) (by decide) (by decide)⟩

/-- C5 counterexample: the claim as stated is false on the model.  First, in
the primary-key + text scenario (section 8, scenario 6) the text predicate is
memoized `ServedApprox` yet the restriction rewriter, short-circuited by the
recorded primary-key path, returns it without `requiresRuntimeRecheck =
true`.  Second, with the runtime-text-scan flag set, an unserved text
predicate is not passed through unannotated: it is forced to
`requiresRuntimeRecheck = true`. -/
theorem recheck_invariant_counterexample :
    lookupProbe (rewritePaths [pkIndex, textIndex] scenarioParams
        [pkPredSample, textPredSample]
        (freshContext sampleInputNoFlag)).ctx.probedPredicates textPredSample
      = some (ProbeResult.servedApprox textIndex) ∧
    annotateRestrictions (rewritePaths [pkIndex, textIndex] scenarioParams
        [pkPredSample, textPredSample] (freshContext sampleInputNoFlag)).ctx
        [textPredSample]
      = Except.ok [{ pred := textPredSample, requiresRuntimeRecheck := Option.none }] ∧
    lookupProbe (rewritePaths [] scenarioParams [textPredSample]
        (freshContext sampleInputFlag)).ctx.probedPredicates textPredSample
      = some ProbeResult.unserved ∧
    annotateRestrictions (rewritePaths [] scenarioParams [textPredSample]
        (freshContext sampleInputFlag)).ctx [textPredSample]
      = Except.ok [{ pred := textPredSample, requiresRuntimeRecheck := some true }] :=
  ⟨by decide, by rfl, by decide, by rfl⟩

/-- C9 (amended): Runtime text scan override.  For relations where the
context records no primary-key path, when the caller sets the
runtime-text-scan flag every text predicate in the restriction list is
annotated `requiresRuntimeRecheck = true` regardless of its memoized probe
result (even a `ServedExact` or unserved one). -/
theorem runtime_text_scan_override (ctx : ReplaceExtensionFunctionContext)
    (l : List QueryPredicate)
    (hrun : ctx.pathsProcessed = true)
    (hpk : ctx.primaryKeyLookupPath = Option.none)
    (hflag : ctx.inputData.isRuntimeTextScan = true) :
    ∃ out, annotateRestrictions ctx l = Except.ok out ∧
      ∀ a ∈ out, a.pred.isTextSearch = true →
        a.requiresRuntimeRecheck = some true := by
  refine ⟨l.map (annotateOne ctx.inputData ctx.probedPredicates), ?_, ?_⟩
  · simp [annotateRestrictions, hrun, hpk]
  · intro a ha htext
    obtain ⟨p, _, hap⟩ := List.mem_map.mp ha
    have hpred : a.pred = p := by
      rw [← hap]
      unfold annotateOne
      split <;> rfl
    rw [hpred] at htext
    rw [← hap]
    simp [annotateOne, htext, hflag]

/-- C9 witness: a concrete flag-set, non-primary-key context on which every
text predicate of the restriction list is forced to
`requiresRuntimeRecheck = true`. -/
theorem runtime_text_scan_override_witness :
    (rewritePaths [textIndex] scenarioParams [textPredSample]
      (freshContext sampleInputFlag)).ctx.pathsProcessed = true ∧
    (rewritePaths [textIndex] scenarioParams [textPredSample]
      (freshContext sampleInputFlag)).ctx.primaryKeyLookupPath = Option.none ∧
    (rewritePaths [textIndex] scenarioParams [textPredSample]
      (freshContext sampleInputFlag)).ctx.inputData.isRuntimeTextScan = true ∧
    ∃ out, annotateRestrictions (rewritePaths [textIndex] scenarioParams
        [textPredSample] (freshContext sampleInputFlag)).ctx [textPredSample]
          = Except.ok out ∧
      ∀ a ∈ out, a.pred.isTextSearch = true →
        a.requiresRuntimeRecheck = some true :=
  ⟨by decide, by decide, by decide,
    runtime_text_scan_override
      (rewritePaths [textIndex] scenarioParams [textPredSample]
        (freshContext sampleInputFlag)).ctx
      [textPredSample] (by decide) (by decide) (by decide)⟩

/-- C9 counterexample: the claim as stated is false on the model.  In a
compile with the runtime-text-scan flag set, a relation whose path rewrite
found a primary-key lookup short-circuits the restriction rewriter, so its
text predicate comes back with no `requiresRuntimeRecheck` annotation at all
rather than `requiresRuntimeRecheck = true`. -/
theorem runtime_text_scan_override_counterexample :
    (rewritePaths [pkIndex, textIndex] scenarioParams [pkPredSample, textPredSample]
      (freshContext sampleInputFlag)).ctx.inputData.isRuntimeTextScan = true ∧
    textPredSample.isTextSearch = true ∧
    annotateRestrictions (rewritePaths [pkIndex, textIndex] scenarioParams
        [pkPredSample, textPredSample] (freshContext sampleInputFlag)).ctx
        [textPredSample]
      = Except.ok [{ pred := textPredSample, requiresRuntimeRecheck := Option.none }] :=
  ⟨by decide, by decide, by rfl⟩

/-- C1: First-match-wins for primary keys.  Starting from a fresh context,
whenever some predicate of the relation probes `ServedExact` via the
primary-key index, `rewritePaths` produces exactly one access path — the
primary-key lookup — records it in the context, and rewrites no other
predicate of the relation into an index path: every other predicate remains
in the restriction list unrewritten. -/
theorem pk_first_match_wins (idxs : List CandidateIndex) (prm : RewriteParams)
    (preds : List QueryPredicate) (input : ReplaceFunctionContextInput)
    (h : ∃ p ∈ preds, ∃ ix, probe idxs p = ProbeResult.servedExact ix ∧
      IsBtreePrimaryKeyIndex ix = true) :
    ∃ q jx, q ∈ preds ∧ probe idxs q = ProbeResult.servedExact jx ∧
      IsBtreePrimaryKeyIndex jx = true ∧
      (rewritePaths idxs prm preds (freshContext input)).paths
        = [AccessPath.indexScan jx q true] ∧
      (rewritePaths idxs prm preds (freshContext input)).ctx.primaryKeyLookupPath
        = some (AccessPath.indexScan jx q true) ∧
      (rewritePaths idxs prm preds (freshContext input)).filters
        = removeFirst preds q ∧
      (rewritePaths idxs prm preds (freshContext input)).combinator
        = Combinator.none := by
  have hmm : ∀ p ∈ preds, memoResult (probeAllM idxs preds []) p = probe idxs p :=
    fun p hp => memoResult_probeAllM_of_faithful idxs preds [] p (faithful_nil idxs) hp
  obtain ⟨q, jx, hfind, hq, hprobe, hpkix⟩ :=
    findPkMatch_of_exists idxs (probeAllM idxs preds []) preds hmm h
  have hfresh : (freshContext input).probedPredicates = [] := rfl
  have hfind2 : findPkMatch
      ({ freshContext input with
          probedPredicates :=
            probeAllM idxs preds (freshContext input).probedPredicates } :
        ReplaceExtensionFunctionContext).probedPredicates preds = some (q, jx) := by
    rw [show ({ freshContext input with
        probedPredicates :=
          probeAllM idxs preds (freshContext input).probedPredicates } :
        ReplaceExtensionFunctionContext).probedPredicates
      = probeAllM idxs preds [] from rfl]
    exact hfind
  refine ⟨q, jx, hq, hprobe, hpkix, ?_, ?_, ?_, ?_⟩ <;>
    rw [rewritePaths_eq, rewriteDecide_pk _ _ _ _ _ hfind2]

/-- C1 witness: the primary-key + text scenario (section 8, scenario 6): the
rewrite yields only the primary-key lookup path and leaves the text predicate
in the restriction list. -/
theorem pk_first_match_wins_witness :
    (∃ p ∈ [pkPredSample, textPredSample], ∃ ix,
      probe [pkIndex, textIndex] p = ProbeResult.servedExact ix ∧
      IsBtreePrimaryKeyIndex ix = true) ∧
    (∃ q jx, q ∈ [pkPredSample, textPredSample] ∧
      probe [pkIndex, textIndex] q = ProbeResult.servedExact jx ∧
      IsBtreePrimaryKeyIndex jx = true ∧
      (rewritePaths [pkIndex, textIndex] scenarioParams [pkPredSample, textPredSample]
        (freshContext sampleInputNoFlag)).paths = [AccessPath.indexScan jx q true] ∧
      (rewritePaths [pkIndex, textIndex] scenarioParams [pkPredSample, textPredSample]
        (freshContext sampleInputNoFlag)).ctx.primaryKeyLookupPath
        = some (AccessPath.indexScan jx q true) ∧
      (rewritePaths [pkIndex, textIndex] scenarioParams [pkPredSample, textPredSample]
        (freshContext sampleInputNoFlag)).filters
        = removeFirst [pkPredSample, textPredSample] q ∧
      (rewritePaths [pkIndex, textIndex] scenarioParams [pkPredSample, textPredSample]
        (freshContext sampleInputNoFlag)).combinator = Combinator.none) :=
  ⟨⟨pkPredSample, by decide, pkIndex, by decide, by decide⟩,
    pk_first_match_wins [pkIndex, textIndex] scenarioParams
      [pkPredSample, textPredSample] sampleInputNoFlag
      ⟨pkPredSample, by decide, pkIndex, by decide, by decide⟩⟩

/-- Helper: a single-predicate rewrite from a fresh context, when the probed
predicate is not a primary-key match, reduces to the per-predicate path
synthesis, filter and combinator selection over the singleton memo. -/
theorem rewritePaths_single_nopk (idxs : List CandidateIndex) (prm : RewriteParams)
    (p : QueryPredicate) (input : ReplaceFunctionContextInput)
    (hnopk : findPkMatch [(p, probe idxs p)] [p] = Option.none) :
    (rewritePaths idxs prm [p] (freshContext input)).paths
      = pathsFor prm [(p, probe idxs p)] p ∧
    (rewritePaths idxs prm [p] (freshContext input)).filters
      = List.filter (fun q => (pathsFor prm [(p, probe idxs p)] q).isEmpty) [p] ∧
    (rewritePaths idxs prm [p] (freshContext input)).combinator
      = chooseCombinator prm.parentType (pathsFor prm [(p, probe idxs p)] p) := by
  have hm : probeAllM idxs [p] (freshContext input).probedPredicates
      = [(p, probe idxs p)] := probeAllM_singleton idxs p
  refine ⟨?_, ?_, ?_⟩ <;>
    · rw [rewritePaths_eq, hm, rewriteDecide_nopk prm [p] _ hnopk]
      try simp

/-- C2: Vector exactness.  A `VectorKNN` predicate with `exactFlag = true`
always probes `Unserved`: no index access path is produced and the predicate
remains in the restriction list as a full runtime evaluation.  The same
predicate with `exactFlag = false`, when a vector index matching the
descriptor's metric and dimensionality exists, probes `ServedApprox` and the
rewrite yields exactly one vector index access path. -/
theorem vector_exactness (idxs : List CandidateIndex) (prm : RewriteParams)
    (d : SearchQueryEvalData) (input : ReplaceFunctionContextInput)
    (hwf : wellFormedVector d = true)
    (hmatch : ∃ j ∈ idxs, vectorIndexMatches d j = true) :
    probe idxs (QueryPredicate.vectorKNN d true) = ProbeResult.unserved ∧
    (rewritePaths idxs prm [QueryPredicate.vectorKNN d true]
      (freshContext input)).paths = [] ∧
    (rewritePaths idxs prm [QueryPredicate.vectorKNN d true]
      (freshContext input)).filters = [QueryPredicate.vectorKNN d true] ∧
    ∃ ix, probe idxs (QueryPredicate.vectorKNN d false) = ProbeResult.servedApprox ix ∧
      (rewritePaths idxs prm [QueryPredicate.vectorKNN d false]
        (freshContext input)).paths
        = [AccessPath.indexScan ix (QueryPredicate.vectorKNN d false) false] ∧
      (rewritePaths idxs prm [QueryPredicate.vectorKNN d false]
        (freshContext input)).combinator = Combinator.none := by
  have hexact : probe idxs (QueryPredicate.vectorKNN d true) = ProbeResult.unserved := rfl
  obtain ⟨ix, hfindix⟩ : ∃ ix, idxs.find? (vectorIndexMatches d) = some ix :=
    Option.isSome_iff_exists.mp (List.find?_isSome.mpr hmatch)
  have happrox : probe idxs (QueryPredicate.vectorKNN d false)
      = ProbeResult.servedApprox ix := by
    simp [probe, hwf, hfindix]
  have hnopk1 : findPkMatch
      [(QueryPredicate.vectorKNN d true, probe idxs (QueryPredicate.vectorKNN d true))]
      [QueryPredicate.vectorKNN d true] = Option.none := by
    rw [hexact]
    simp [findPkMatch, memoResult_singleton]
  have hnopk2 : findPkMatch
      [(QueryPredicate.vectorKNN d false, probe idxs (QueryPredicate.vectorKNN d false))]
      [QueryPredicate.vectorKNN d false] = Option.none := by
    rw [happrox]
    simp [findPkMatch, memoResult_singleton]
  obtain ⟨hp1, hf1, _⟩ := rewritePaths_single_nopk idxs prm _ input hnopk1
  obtain ⟨hp2, _, hc2⟩ := rewritePaths_single_nopk idxs prm _ input hnopk2
  rw [hexact] at hp1 hf1
  rw [happrox] at hp2 hc2
  simp [pathsFor, memoResult_singleton] at hp1 hp2
  simp [List.filter, pathsFor, memoResult_singleton] at hf1
  simp [chooseCombinator, pathsFor, memoResult_singleton] at hc2
  exact ⟨hexact, hp1, hf1, ix, happrox, hp2, hc2⟩

/-- C2 witness: a cosine, three-dimensional vector index and descriptor. -/
theorem vector_exactness_witness :
    wellFormedVector ⟨"cosine", 3, 10⟩ = true ∧
    (∃ j ∈ [vecIndex], vectorIndexMatches ⟨"cosine", 3, 10⟩ j = true) ∧
    (probe [vecIndex] (QueryPredicate.vectorKNN ⟨"cosine", 3, 10⟩ true)
      = ProbeResult.unserved ∧
    (rewritePaths [vecIndex] scenarioParams
      [QueryPredicate.vectorKNN ⟨"cosine", 3, 10⟩ true]
      (freshContext sampleInputNoFlag)).paths = [] ∧
    (rewritePaths [vecIndex] scenarioParams
      [QueryPredicate.vectorKNN ⟨"cosine", 3, 10⟩ true]
      (freshContext sampleInputNoFlag)).filters
      = [QueryPredicate.vectorKNN ⟨"cosine", 3, 10⟩ true] ∧
    ∃ ix, probe [vecIndex] (QueryPredicate.vectorKNN ⟨"cosine", 3, 10⟩ false)
        = ProbeResult.servedApprox ix ∧
      (rewritePaths [vecIndex] scenarioParams
        [QueryPredicate.vectorKNN ⟨"cosine", 3, 10⟩ false]
        (freshContext sampleInputNoFlag)).paths
        = [AccessPath.indexScan ix (QueryPredicate.vectorKNN ⟨"cosine", 3, 10⟩ false) false] ∧
      (rewritePaths [vecIndex] scenarioParams
        [QueryPredicate.vectorKNN ⟨"cosine", 3, 10⟩ false]
        (freshContext sampleInputNoFlag)).combinator = Combinator.none) :=
  ⟨by decide, ⟨vecIndex, by decide, by decide⟩,
    vector_exactness [vecIndex] scenarioParams ⟨"cosine", 3, 10⟩ sampleInputNoFlag
      (by decide) ⟨vecIndex, by decide, by decide⟩⟩

/-- C3: `$in` fan-out threshold.  With the `$in` optimization enabled and a
bitmap-heap parent, an `InList` of N values served by an equality-capable
(non-primary-key) index is rewritten into exactly one multi-value index scan
when N is at most the configured fan-out threshold T, and into exactly N
single-value index scans combined with `Combinator = BitmapOr` when N
exceeds T. -/
theorem in_threshold_behavior (idxs : List CandidateIndex) (f : String)
    (vs : List Int) (input : ReplaceFunctionContextInput) (T : Nat)
    (hT : 0 < T) (ix : CandidateIndex)
    (hprobe : probe idxs (QueryPredicate.inList f vs) = ProbeResult.servedExact ix)
    (hnotpk : IsBtreePrimaryKeyIndex ix = false) :
    (vs.length ≤ T →
      (rewritePaths idxs ⟨T, true, PlanParentType.PARENTTYPE_BITMAPHEAP⟩
        [QueryPredicate.inList f vs] (freshContext input)).paths
        = [AccessPath.multiValueIndexScan ix f vs]) ∧
    (T < vs.length →
      (rewritePaths idxs ⟨T, true, PlanParentType.PARENTTYPE_BITMAPHEAP⟩
        [QueryPredicate.inList f vs] (freshContext input)).paths
        = vs.map (AccessPath.singleValueIndexScan ix f) ∧
      (rewritePaths idxs ⟨T, true, PlanParentType.PARENTTYPE_BITMAPHEAP⟩
        [QueryPredicate.inList f vs] (freshContext input)).paths.length = vs.length ∧
      (rewritePaths idxs ⟨T, true, PlanParentType.PARENTTYPE_BITMAPHEAP⟩
        [QueryPredicate.inList f vs] (freshContext input)).combinator
        = Combinator.bitmapOr) := by
  have hnopk : findPkMatch
      [(QueryPredicate.inList f vs, probe idxs (QueryPredicate.inList f vs))]
      [QueryPredicate.inList f vs] = Option.none := by
    rw [hprobe]
    simp [findPkMatch, memoResult_singleton, hnotpk]
  obtain ⟨hp, _, hc⟩ := rewritePaths_single_nopk idxs
    ⟨T, true, PlanParentType.PARENTTYPE_BITMAPHEAP⟩ _ input hnopk
  rw [hprobe] at hp hc
  constructor
  · intro hle
    rw [hp]
    simp [pathsFor, memoResult_singleton, hle]
  · intro hgt
    have hnle : ¬vs.length ≤ T := Nat.not_le.mpr hgt
    have hpath : (rewritePaths idxs ⟨T, true, PlanParentType.PARENTTYPE_BITMAPHEAP⟩
        [QueryPredicate.inList f vs] (freshContext input)).paths
        = vs.map (AccessPath.singleValueIndexScan ix f) := by
      rw [hp]
      simp [pathsFor, memoResult_singleton, hnle]
    have hlen : 1 < vs.length := by omega
    have hn1 : ¬vs.length ≤ 1 := by omega
    refine ⟨hpath, ?_, ?_⟩
    · rw [hpath]
      simp
    · rw [hc]
      simp [pathsFor, memoResult_singleton, hnle, chooseCombinator, hn1]

/-- C3 witness: three values against threshold 2 on a secondary equality
index produce three single-value scans under BitmapOr. -/
theorem in_threshold_behavior_witness :
    (0 < 2 ∧ probe [eqIndex] (QueryPredicate.inList "a" [1, 2, 3])
        = ProbeResult.servedExact eqIndex ∧
      IsBtreePrimaryKeyIndex eqIndex = false) ∧
    ((([1, 2, 3] : List Int).length ≤ 2 →
      (rewritePaths [eqIndex] ⟨2, true, PlanParentType.PARENTTYPE_BITMAPHEAP⟩
        [QueryPredicate.inList "a" [1, 2, 3]] (freshContext sampleInputNoFlag)).paths
        = [AccessPath.multiValueIndexScan eqIndex "a" [1, 2, 3]]) ∧
    (2 < ([1, 2, 3] : List Int).length →
      (rewritePaths [eqIndex] ⟨2, true, PlanParentType.PARENTTYPE_BITMAPHEAP⟩
        [QueryPredicate.inList "a" [1, 2, 3]] (freshContext sampleInputNoFlag)).paths
        = ([1, 2, 3] : List Int).map (AccessPath.singleValueIndexScan eqIndex "a") ∧
      (rewritePaths [eqIndex] ⟨2, true, PlanParentType.PARENTTYPE_BITMAPHEAP⟩
        [QueryPredicate.inList "a" [1, 2, 3]] (freshContext sampleInputNoFlag)).paths.length
        = ([1, 2, 3] : List Int).length ∧
      (rewritePaths [eqIndex] ⟨2, true, PlanParentType.PARENTTYPE_BITMAPHEAP⟩
        [QueryPredicate.inList "a" [1, 2, 3]] (freshContext sampleInputNoFlag)).combinator
        = Combinator.bitmapOr)) :=
  ⟨⟨by decide, by decide, by decide⟩,
    in_threshold_behavior [eqIndex] "a" [1, 2, 3] sampleInputNoFlag 2
      (by decide) eqIndex (by decide) (by decide)⟩

/-- C7: Unservable inputs are not errors.  When no index serves any predicate
of the relation, the rewrite returns the empty access-path list with
`Combinator = None` and leaves every predicate in the restriction list as a
runtime filter; no failure is raised (the rewrite is a total function).
Malformed vector and text search descriptors probe `Unserved` rather than
failing. -/
theorem unservable_inputs_not_errors (idxs : List CandidateIndex)
    (prm : RewriteParams) (preds : List QueryPredicate)
    (input : ReplaceFunctionContextInput)
    (hall : ∀ p ∈ preds, probe idxs p = ProbeResult.unserved) :
    (rewritePaths idxs prm preds (freshContext input)).paths = [] ∧
    (rewritePaths idxs prm preds (freshContext input)).combinator = Combinator.none ∧
    (rewritePaths idxs prm preds (freshContext input)).filters = preds ∧
    (∀ d e, wellFormedVector d = false →
      probe idxs (QueryPredicate.vectorKNN d e) = ProbeResult.unserved) ∧
    (∀ d, wellFormedText d = false →
      probe idxs (QueryPredicate.textSearch d) = ProbeResult.unserved) := by
  have hmemo : ∀ p ∈ preds,
      memoResult (probeAllM idxs preds (freshContext input).probedPredicates) p
        = ProbeResult.unserved := fun p hp => by
    rw [memoResult_probeAllM_of_faithful idxs preds
      (freshContext input).probedPredicates p (faithful_nil idxs) hp]
    exact hall p hp
  have hfind : findPkMatch (probeAllM idxs preds (freshContext input).probedPredicates)
      preds = Option.none :=
    findPkMatch_none_of_unserved _ _ hmemo
  have hpf : ∀ p ∈ preds,
      pathsFor prm (probeAllM idxs preds (freshContext input).probedPredicates) p
        = [] := fun p hp => by
    simp [pathsFor, hmemo p hp]
  have hflat : ((preds.map (pathsFor prm
      (probeAllM idxs preds (freshContext input).probedPredicates))).flatten
      : List AccessPath) = [] := by
    simp only [List.flatten_eq_nil_iff]
    intro l hl
    obtain ⟨p, hp, hlp⟩ := List.mem_map.mp hl
    rw [← hlp]
    exact hpf p hp
  refine ⟨?_, ?_, ?_, ?_, ?_⟩
  · rw [rewritePaths_eq, rewriteDecide_nopk prm preds _ hfind]
    exact hflat
  · rw [rewritePaths_eq, rewriteDecide_nopk prm preds _ hfind]
    dsimp only
    rw [hflat]
    simp [chooseCombinator]
  · rw [rewritePaths_eq, rewriteDecide_nopk prm preds _ hfind]
    dsimp only
    refine List.filter_eq_self.mpr fun p hp => ?_
    simp [hpf p hp]
  · intro d e hbad
    cases e with
    | true => rfl
    | false => simp [probe, hbad]
  · intro d hbad
    simp [probe, hbad]

/-- C7 witness: a relation with no indexes, a text predicate and an
unsupported predicate: empty path list, no combinator, both predicates kept
as runtime filters, and malformed descriptors probe unserved. -/
theorem unservable_inputs_not_errors_witness :
    (∀ p ∈ [textPredSample, QueryPredicate.unsupported 0],
      probe [] p = ProbeResult.unserved) ∧
    ((rewritePaths [] scenarioParams [textPredSample, QueryPredicate.unsupported 0]
      (freshContext sampleInputNoFlag)).paths = [] ∧
    (rewritePaths [] scenarioParams [textPredSample, QueryPredicate.unsupported 0]
      (freshContext sampleInputNoFlag)).combinator = Combinator.none ∧
    (rewritePaths [] scenarioParams [textPredSample, QueryPredicate.unsupported 0]
      (freshContext sampleInputNoFlag)).filters
      = [textPredSample, QueryPredicate.unsupported 0] ∧
    (∀ d e, wellFormedVector d = false →
      probe [] (QueryPredicate.vectorKNN d e) = ProbeResult.unserved) ∧
    (∀ d, wellFormedText d = false →
      probe [] (QueryPredicate.textSearch d) = ProbeResult.unserved)) :=
  ⟨by decide,
    unservable_inputs_not_errors [] scenarioParams
      [textPredSample, QueryPredicate.unsupported 0] sampleInputNoFlag (by decide)⟩

/-- C10: Implicit gating of the `$in` rewrite.  An `InList` predicate served
by an equality-capable (non-primary-key) index is left as a runtime filter,
with no index path synthesized, whenever `EnableInQueryOptimization` is
disabled or the parent plan node type is `PARENTTYPE_INVALID`. -/
theorem in_rewrite_gating (idxs : List CandidateIndex) (T : Nat)
    (parent : PlanParentType) (f : String) (vs : List Int)
    (input : ReplaceFunctionContextInput) (ix : CandidateIndex)
    (hprobe : probe idxs (QueryPredicate.inList f vs) = ProbeResult.servedExact ix)
    (hnotpk : IsBtreePrimaryKeyIndex ix = false) :
    ((rewritePaths idxs ⟨T, false, parent⟩ [QueryPredicate.inList f vs]
        (freshContext input)).paths = [] ∧
      (rewritePaths idxs ⟨T, false, parent⟩ [QueryPredicate.inList f vs]
        (freshContext input)).filters = [QueryPredicate.inList f vs]) ∧
    ((rewritePaths idxs ⟨T, true, PlanParentType.PARENTTYPE_INVALID⟩
        [QueryPredicate.inList f vs] (freshContext input)).paths = [] ∧
      (rewritePaths idxs ⟨T, true, PlanParentType.PARENTTYPE_INVALID⟩
        [QueryPredicate.inList f vs] (freshContext input)).filters
        = [QueryPredicate.inList f vs]) := by
  have hnopk : findPkMatch
      [(QueryPredicate.inList f vs, probe idxs (QueryPredicate.inList f vs))]
      [QueryPredicate.inList f vs] = Option.none := by
    rw [hprobe]
    simp [findPkMatch, memoResult_singleton, hnotpk]
  obtain ⟨hp1, hf1, _⟩ := rewritePaths_single_nopk idxs ⟨T, false, parent⟩ _ input hnopk
  obtain ⟨hp2, hf2, _⟩ := rewritePaths_single_nopk idxs
    ⟨T, true, PlanParentType.PARENTTYPE_INVALID⟩ _ input hnopk
  rw [hprobe] at hp1 hf1 hp2 hf2
  refine ⟨⟨?_, ?_⟩, ⟨?_, ?_⟩⟩
  · rw [hp1]
    simp [pathsFor, memoResult_singleton]
  · rw [hf1]
    simp [List.filter, pathsFor, memoResult_singleton]
  · rw [hp2]
    simp [pathsFor, memoResult_singleton]
  · rw [hf2]
    simp [List.filter, pathsFor, memoResult_singleton]

/-- C10 witness: a served three-value `$in` on a secondary equality index is
left untouched both with the optimization disabled and with an invalid
parent. -/
theorem in_rewrite_gating_witness :
    (probe [eqIndex] (QueryPredicate.inList "a" [1, 2, 3])
        = ProbeResult.servedExact eqIndex ∧
      IsBtreePrimaryKeyIndex eqIndex = false) ∧
    (((rewritePaths [eqIndex] ⟨2, false, PlanParentType.PARENTTYPE_NONE⟩
        [QueryPredicate.inList "a" [1, 2, 3]] (freshContext sampleInputNoFlag)).paths = [] ∧
      (rewritePaths [eqIndex] ⟨2, false, PlanParentType.PARENTTYPE_NONE⟩
        [QueryPredicate.inList "a" [1, 2, 3]] (freshContext sampleInputNoFlag)).filters
        = [QueryPredicate.inList "a" [1, 2, 3]]) ∧
    ((rewritePaths [eqIndex] ⟨2, true, PlanParentType.PARENTTYPE_INVALID⟩
        [QueryPredicate.inList "a" [1, 2, 3]] (freshContext sampleInputNoFlag)).paths = [] ∧
      (rewritePaths [eqIndex] ⟨2, true, PlanParentType.PARENTTYPE_INVALID⟩
        [QueryPredicate.inList "a" [1, 2, 3]] (freshContext sampleInputNoFlag)).filters
        = [QueryPredicate.inList "a" [1, 2, 3]])) :=
  ⟨⟨by decide, by decide⟩,
    in_rewrite_gating [eqIndex] 2 PlanParentType.PARENTTYPE_NONE "a" [1, 2, 3]
      sampleInputNoFlag eqIndex (by decide) (by decide)⟩
